import Mathlib

/-!
Verification of the core normalization / validation / analytics logic of the
market data pipeline (`src/processors/data_processor.py`,
`src/validators/data_validator.py`, `src/reporting/analytics.py`).

Strings are modelled as `List Char`; prices as exact rationals (`ℚ`); Python's
`None` / parse failure as `Option`.  Python floats are modelled as exact
rationals and Python's `round` as round-half-to-even over `ℚ`.  The regex
class `\d` is modelled as the ASCII digits; `str.upper` / `re.IGNORECASE` are
modelled by a per-character upper-case map covering the ASCII and Cyrillic
ranges actually used by the unit tables.  All rational values are constructed
through `mkRat` so that every definition evaluates inside `decide`.
-/

/-! ## Kernel-reducible rational arithmetic -/

/-- Difference of two rationals, built via `mkRat` (kernel-reducible). -/

def qSub (a b : ℚ) : ℚ :=
  mkRat (a.num * (b.den : ℤ) - b.num * (a.den : ℤ)) (a.den * b.den)

/-- Quotient of two rationals, built via `mkRat`; division by zero gives 0,
matching the `ℚ` convention. -/
def qDiv (a b : ℚ) : ℚ :=
  if 0 ≤ b.num then mkRat (a.num * (b.den : ℤ)) (a.den * b.num.toNat)
  else mkRat (-(a.num * (b.den : ℤ))) (a.den * (-b.num).toNat)

/-- Product of a rational and a natural number, built via `mkRat`. -/
def qMulNat (a : ℚ) (n : ℕ) : ℚ := mkRat (a.num * (n : ℤ)) a.den

/-- Quotient of a rational by a natural number, built via `mkRat`. -/
def qDivNat (a : ℚ) (n : ℕ) : ℚ := mkRat a.num (a.den * n)

/-- Absolute value of a rational, built via `mkRat`. -/
def qAbs (a : ℚ) : ℚ := if a.num < 0 then mkRat (-a.num) a.den else a

/-- Round a rational to the nearest integer, ties to even: the behaviour of
Python's `round`. -/
def roundHalfEven (q : ℚ) : ℤ :=
  let f : ℤ := q.num / (q.den : ℤ)
  let mid : ℚ := mkRat (2 * f + 1) 2
  if q < mid then f
  else if mid < q then f + 1
  else if f % 2 = 0 then f else f + 1

/-- Python's `round(x, 2)` over exact rationals. -/
def round2 (q : ℚ) : ℚ := mkRat (roundHalfEven (qMulNat q 100)) 100

/-! ## Character helpers -/

/-- Characters matched by the regex class `\s` (for the inputs of this
pipeline: ASCII whitespace). -/
def isPySpace (c : Char) : Bool :=
  c == ' ' || c == '\t' || c == '\n' || c == '\r' || c == '\x0b' || c == '\x0c'

/-- Per-character model of Python's `str.upper()` and of `re.IGNORECASE` case
folding, covering ASCII letters and the Cyrillic ranges U+0430–U+044F and
U+0450–U+045F (the alphabets appearing in the unit tables and raw data). -/
def pyToUpper (c : Char) : Char :=
  if 'a' ≤ c ∧ c ≤ 'z' then Char.ofNat (c.toNat - 32)
  else if 'а' ≤ c ∧ c ≤ 'я' then Char.ofNat (c.toNat - 32)
  else if 'ѐ' ≤ c ∧ c ≤ 'џ' then Char.ofNat (c.toNat - 80)
  else c

/-- Characters matched by the regex class `\w` (ASCII word characters plus the
Cyrillic letter ranges used by this data). -/
def isWordChar (c : Char) : Bool :=
  c.isAlphanum || c == '_' || ('Ѐ' ≤ c && c ≤ 'џ') || ('А' ≤ c && c ≤ 'я')

/-! ## PriceTextParser (`DataProcessor._extract_price`) -/

/-- Value of a most-significant-first list of ASCII digits. -/
def digitsVal (ds : List Char) : ℕ :=
  ds.foldl (fun a c => 10 * a + (c.toNat - 48)) 0

/-- Rational value of an integer digit list `ip` and a fractional digit list
`fp`, i.e. of the decimal string `ip.fp`. -/
def ratOfParts (ip fp : List Char) : ℚ :=
  mkRat (digitsVal ip * 10 ^ fp.length + digitsVal fp) (10 ^ fp.length)

/-- Python's `float(s)` restricted to the alphabet that can reach it in this
pipeline (ASCII digits and `.`): it succeeds iff the string consists of digits
and at most one dot and contains at least one digit. -/
def pyFloat (s : List Char) : Option ℚ :=
  if (s.all fun c => c.isDigit || c == '.') ∧ (s.any fun c => c.isDigit) ∧
      s.count '.' ≤ 1 then
    some (ratOfParts (s.takeWhile fun c => c != '.')
      ((s.dropWhile fun c => c != '.').drop 1))
  else none

/-- Model of `re.sub(r"[^\d.,]", "", s)`: keep only digits, `.` and `,`. -/
def stripNonNumeric (s : List Char) : List Char :=
  s.filter fun c => c.isDigit || c == '.' || c == ','

/-- The separator normalization inside `DataProcessor._extract_price`: if both
`,` and `.` occur, drop every `,`; else if `,` occurs, turn every `,` into
`.`. -/
def normalizeSeparators (t : List Char) : List Char :=
  if t.contains ',' && t.contains '.' then t.filter (fun c => c != ',')
  else if t.contains ',' then t.map (fun c => if c == ',' then '.' else c)
  else t

/-- `DataProcessor._extract_price` (the spec's `PriceTextParser.parse`). -/
def extract_price (s : List Char) : Option ℚ :=
  if s.isEmpty then none
  else pyFloat (normalizeSeparators (stripNonNumeric s))

/-- The §4.1 `PriceTextParser.parse` contract written from the spec's words:
strip all characters except digits, `.`, `,`; if both `.` and `,` appear,
remove every `,` (thousands separator); else if only `,` appears, replace it
by `.`; parse the remainder as a float, null on empty input or parse
failure. -/
def parseSpec (s : List Char) : Option ℚ :=
  let t := s.filter fun c => c.isDigit || c == '.' || c == ','
  if t.contains '.' && t.contains ',' then
    pyFloat (t.filter fun c => c != ',')
  else if t.contains ',' then
    pyFloat (t.map fun c => if c == ',' then '.' else c)
  else pyFloat t

/-! ## MeasurementExtractor: the `MEASUREMENT_PATTERNS` table -/

/-- The three measurement kinds of `MEASUREMENT_PATTERNS`. -/
inductive UnitKind
  | volume
  | weight
  | pieces
deriving DecidableEq, Repr

/-- Volume unit tokens, in the alternation order of the volume regex. -/
def volumeUnits : List (List Char) :=
  ["МЛ", "Л", "ЛТ", "ЛИТАР", "ЛИТРИ", "ML", "L", "LT"].map String.toList

/-- Weight unit tokens, in the alternation order of the weight regex. -/
def weightUnits : List (List Char) :=
  ["Г", "ГР", "КГ", "ГРАМ", "КИЛОГРАМ", "ГРАМОВИ", "КИЛОГРАМИ", "КГР",
    "G", "GR", "KG"].map String.toList

/-- Pieces unit tokens, in the alternation order of the pieces regex. -/
def piecesUnits : List (List Char) :=
  ["КОМ", "ПАР", "БРОЈ", "ПАРЧЕ", "PAR", "PARCE", "PARCHE", "PCS", "PC"].map
    String.toList

/-- The `multipliers` table of the volume entry of `MEASUREMENT_PATTERNS`. -/
def volumeMultipliers : List (List Char × ℕ) :=
  [("МЛ", 1), ("Л", 1000), ("ЛТ", 1000), ("ЛИТАР", 1000), ("ЛИТРИ", 1000),
    ("ML", 1), ("L", 1000), ("LT", 1000)].map fun p => (p.1.toList, p.2)

/-- The `multipliers` table of the weight entry of `MEASUREMENT_PATTERNS`. -/
def weightMultipliers : List (List Char × ℕ) :=
  [("Г", 1), ("ГР", 1), ("КГ", 1000), ("ГРАМ", 1), ("КИЛОГРАМ", 1000),
    ("ГРАМОВИ", 1), ("КИЛОГРАМИ", 1000), ("КГР", 1000),
    ("G", 1), ("GR", 1), ("KG", 1000)].map fun p => (p.1.toList, p.2)

/-- The `multipliers` table of the pieces entry of `MEASUREMENT_PATTERNS`. -/
def piecesMultipliers : List (List Char × ℕ) :=
  [("КОМ", 1), ("ПАР", 1), ("БРОЈ", 1), ("ПАРЧЕ", 1), ("PAR", 1),
    ("PARCE", 1), ("PARCHE", 1), ("PCS", 1), ("PC", 1)].map
    fun p => (p.1.toList, p.2)

/-- The unit-token list of a kind (regex alternation order). -/
def unitsOf : UnitKind → List (List Char)
  | UnitKind.volume => volumeUnits
  | UnitKind.weight => weightUnits
  | UnitKind.pieces => piecesUnits

/-- The multiplier table of a kind. -/
def multipliersOf : UnitKind → List (List Char × ℕ)
  | UnitKind.volume => volumeMultipliers
  | UnitKind.weight => weightMultipliers
  | UnitKind.pieces => piecesMultipliers

/-- Dictionary lookup in a multiplier table. -/
def lookupMult (m : List (List Char × ℕ)) (u : List Char) : Option ℕ :=
  (m.find? fun p => p.1 == u).map Prod.snd

/-- `DataProcessor._convert_to_standard`: multiply the quantity by the unit's
multiplier (unknown unit: return the quantity unchanged), then divide by 1000
for volume and weight. -/
def convert_to_standard (q : ℚ) (u : List Char) (k : UnitKind) : ℚ :=
  match lookupMult (multipliersOf k) u with
  | none => q
  | some m =>
    if k = UnitKind.pieces then qMulNat q m else qDivNat (qMulNat q m) 1000

/-- `DataProcessor.UNIT_TYPE_MAP`. -/
def unitTypeMap : UnitKind → List Char
  | UnitKind.volume => "l".toList
  | UnitKind.weight => "kg".toList
  | UnitKind.pieces => "piece".toList

/-! ## MeasurementExtractor: regex search

The two measurement regex shapes of the source are
`(\d+(?:\.\d+)?)\s*(tok1|tok2|...)` (volume, weight) and
`(\d+)\s*(tok1|tok2|...)` (pieces).  For these shapes Python's backtracking
search is equivalent to: at each start position (scanned left to right) match
a greedy digit run, then optionally a greedy `.`+digit run, skip whitespace,
then try the alternation tokens in order; no token starts with a digit, a dot
or whitespace, so no backtracking into the number or the whitespace can ever
produce a match that the greedy scan misses. -/

/-- Match `(\d+(?:\.\d+)?)` (or `(\d+)` when `allowDec` is false) at the head
of `s`; return the matched value and the rest of the string. -/
def matchNumber (allowDec : Bool) (s : List Char) : Option (ℚ × List Char) :=
  let ds := s.takeWhile Char.isDigit
  let r1 := s.dropWhile Char.isDigit
  if ds.isEmpty then none
  else if allowDec then
    match r1 with
    | '.' :: r2 =>
      let fs := r2.takeWhile Char.isDigit
      if fs.isEmpty then some (ratOfParts ds [], r1)
      else some (ratOfParts ds fs, r2.dropWhile Char.isDigit)
    | _ => some (ratOfParts ds [], r1)
  else some (ratOfParts ds [], r1)

/-- Case-insensitive token match at the head of `s` (the token is stored
upper-case); returns the rest of `s` on success. -/
def tokenAt : List Char → List Char → Option (List Char)
  | [], s => some s
  | _ :: _, [] => none
  | t :: ts, c :: cs => if pyToUpper c == t then tokenAt ts cs else none

/-- First token of `toks` (in alternation order) matching at the head of `s`;
returns the token (which equals the upper-cased matched text). -/
def firstTokenAt (toks : List (List Char)) (s : List Char) : Option (List Char) :=
  match toks with
  | [] => none
  | t :: ts =>
    match tokenAt t s with
    | some _ => some t
    | none => firstTokenAt ts s

/-- Try the measurement regex of one kind at the current position. -/
def matchMeasAt (allowDec : Bool) (toks : List (List Char)) (s : List Char) :
    Option (ℚ × List Char) :=
  match matchNumber allowDec s with
  | none => none
  | some (q, r) =>
    match firstTokenAt toks (r.dropWhile isPySpace) with
    | some t => some (q, t)
    | none => none

/-- `re.search` of the measurement regex of one kind: try every start
position, left to right. -/
def searchMeas (allowDec : Bool) (toks : List (List Char)) :
    List Char → Option (ℚ × List Char)
  | [] => none
  | c :: cs =>
    match matchMeasAt allowDec toks (c :: cs) with
    | some r => some r
    | none => searchMeas allowDec toks cs

/-- The kind loop of the two extraction functions: try the volume, weight and
pieces regexes in the (insertion-preserving) iteration order of
`MEASUREMENT_PATTERNS`; return the first match's quantity, upper-cased unit
text and kind. -/
def searchKinds (s : List Char) : Option (ℚ × List Char × UnitKind) :=
  match searchMeas true volumeUnits s with
  | some (q, u) => some (q, u, UnitKind.volume)
  | none =>
    match searchMeas true weightUnits s with
    | some (q, u) => some (q, u, UnitKind.weight)
    | none =>
      match searchMeas false piecesUnits s with
      | some (q, u) => some (q, u, UnitKind.pieces)
      | none => none

/-- The sanitization step of
`DataProcessor._extract_quantity_and_unit_from_product_name`:
`product_name.replace(",", ".").replace("/", " ")`. -/
def sanitizeName (s : List Char) : List Char :=
  s.map fun c => if c == ',' then '.' else if c == '/' then ' ' else c

/-- The `MeasurementResult` dictionary: all four fields are populated on a
match; the no-match dictionary has null `quantity`, `unit`, `unit_type` and no
`standard_quantity` key (modelled as `none`). -/
structure Measurement where
  quantity : Option ℚ
  unit : Option (List Char)
  unit_type : Option UnitKind
  standard_quantity : Option ℚ
deriving DecidableEq, Repr

/-- The all-null `MeasurementResult`. -/
def Measurement.nil : Measurement := ⟨none, none, none, none⟩

/-- Build the `MeasurementResult` of a successful regex match. -/
def measOfMatch (q : ℚ) (u : List Char) (k : UnitKind) : Measurement :=
  ⟨some q, some u, some k, some (convert_to_standard q u k)⟩

/-- `DataProcessor._extract_quantity_and_unit_from_product_name`. -/
def extract_from_name (product_name : List Char) : Measurement :=
  if product_name.isEmpty then Measurement.nil
  else
    match searchKinds (sanitizeName product_name) with
    | some (q, u, k) => measOfMatch q u k
    | none => Measurement.nil

/-! ## `DataProcessor._extract_price_per_unit_value`

The regex actually searched is always `(\d+(?:\.\d+)?)\s*ДЕН\s*/\s*(\w+)`,
independent of the loop's table entry, and when it matches the branch returns
in both cases, so only the first iteration (the volume table) is ever
consulted for the multiplier.  On no match, the fallback literals `ДЕН`,
`ДЕНАР` and the `=` form are tried in order. -/

/-- Match an exact literal at the head of `s`; return the rest. -/
def litAt : List Char → List Char → Option (List Char)
  | [], s => some s
  | _ :: _, [] => none
  | t :: ts, c :: cs => if c == t then litAt ts cs else none

/-- Try `(\d+(?:\.\d+)?)\s*ДЕН\s*/\s*(\w+)` at the current position. -/
def matchDenSlashAt (s : List Char) : Option (ℚ × List Char) :=
  match matchNumber true s with
  | none => none
  | some (q, r) =>
    match litAt "ДЕН".toList (r.dropWhile isPySpace) with
    | none => none
    | some r2 =>
      match r2.dropWhile isPySpace with
      | '/' :: r3 =>
        let w := (r3.dropWhile isPySpace).takeWhile isWordChar
        if w.isEmpty then none else some (q, w)
      | _ => none

/-- `re.search` of `(\d+(?:\.\d+)?)\s*ДЕН\s*/\s*(\w+)`. -/
def searchDenSlash : List Char → Option (ℚ × List Char)
  | [] => none
  | c :: cs =>
    match matchDenSlashAt (c :: cs) with
    | some r => some r
    | none => searchDenSlash cs

/-- Try `(\d+(?:\.\d+)?)\s*<lit>` at the current position. -/
def matchNumLitAt (lit s : List Char) : Option ℚ :=
  match matchNumber true s with
  | none => none
  | some (q, r) =>
    match litAt lit (r.dropWhile isPySpace) with
    | none => none
    | some _ => some q

/-- `re.search` of `(\d+(?:\.\d+)?)\s*<lit>`. -/
def searchNumLit (lit : List Char) : List Char → Option ℚ
  | [] => none
  | c :: cs =>
    match matchNumLitAt lit (c :: cs) with
    | some q => some q
    | none => searchNumLit lit cs

/-- Try `(\d+(?:\.\d+)?)\s*=\s*(\d+(?:\.\d+)?)` at the current position;
return the second number (the code takes `group(2)`). -/
def matchNumEqAt (s : List Char) : Option ℚ :=
  match matchNumber true s with
  | none => none
  | some (_, r) =>
    match r.dropWhile isPySpace with
    | '=' :: r2 =>
      match matchNumber true (r2.dropWhile isPySpace) with
      | some (q2, _) => some q2
      | none => none
    | _ => none

/-- `re.search` of `(\d+(?:\.\d+)?)\s*=\s*(\d+(?:\.\d+)?)`. -/
def searchNumEq : List Char → Option ℚ
  | [] => none
  | c :: cs =>
    match matchNumEqAt (c :: cs) with
    | some q => some q
    | none => searchNumEq cs

/-- `DataProcessor._extract_price_per_unit_value`. -/
def extract_price_per_unit_value (s : List Char) : Option ℚ :=
  if s.isEmpty then none
  else
    let u := s.map pyToUpper
    match searchDenSlash u with
    | some (v, unitTok) =>
      match lookupMult volumeMultipliers unitTok with
      | some m => some (qDivNat (qMulNat v m) 1000)
      | none => some v
    | none =>
      match searchNumLit "ДЕН".toList u with
      | some v => some v
      | none =>
        match searchNumLit "ДЕНАР".toList u with
        | some v => some v
        | none => searchNumEq u

/-- `DataProcessor._extract_quantity_and_unit_from_price_per_unit`: guard
against a price-per-unit field that merely repeats the current price, then
run the kind loop on the raw (non-sanitized) string. -/
def extract_from_ppu (price_per_unit current_price : List Char) : Measurement :=
  if price_per_unit.isEmpty then Measurement.nil
  else
    let cpv := extract_price current_price
    let pv := extract_price_per_unit_value price_per_unit
    let repeatsPrice : Bool :=
      match cpv, pv with
      | some a, some b => a != 0 && b != 0 && qAbs (qSub a b) < mkRat 1 100
      | _, _ => false
    if repeatsPrice then Measurement.nil
    else
      match searchKinds price_per_unit with
      | some (q, u, k) => measOfMatch q u k
      | none => Measurement.nil

/-! ## ProductNormalizer (`DataProcessor.create_product_data`) -/

/-- Model of `re.sub(r"\s+", " ", s)`: collapse every whitespace run into a
single space. -/
def collapseWs : List Char → List Char
  | [] => []
  | [c] => if isPySpace c then [' '] else [c]
  | c :: d :: cs =>
    if isPySpace c && isPySpace d then collapseWs (d :: cs)
    else (if isPySpace c then ' ' else c) :: collapseWs (d :: cs)

/-- Model of Python's `str.strip()`. -/
def stripEnds (s : List Char) : List Char :=
  ((s.dropWhile isPySpace).reverse.dropWhile isPySpace).reverse

/-- `DataProcessor._process_product_name`: collapse whitespace, strip, then
upper-case; empty input gives the empty string. -/
def process_product_name (name : List Char) : List Char :=
  if name.isEmpty then []
  else (stripEnds (collapseWs name)).map pyToUpper

/-- The seven raw string fields handed to `create_product_data`. -/
structure RawFields where
  product_name : List Char
  current_price : List Char
  regular_price : List Char
  description : List Char
  price_per_unit : List Char
  availability : List Char
  store_name : List Char

/-- The standardized product dictionary built by `create_product_data`
(the spec's `CanonicalProduct`), keyed by `FINAL_COLUMNS`. -/
structure CanonicalProduct where
  product_name : List Char
  current_price : Option ℚ
  price_per_unit : Option ℚ
  unit : Option (List Char)
  category : Option (List Char)
  discount_percentage : ℚ
  store_location : List Char
deriving DecidableEq, Repr

/-- The fallback measurement of step 2 of `create_product_data`:
`{quantity: 1.0, unit: "PIECE", unit_type: "pieces", standard_quantity: 1.0}`. -/
def defaultMeasurement : Measurement :=
  ⟨some 1, some "PIECE".toList, some UnitKind.pieces, some 1⟩

/-- Step 2 of `create_product_data`: the single source of truth for
measurements — the name measurement if it found a unit kind, else the
price-per-unit measurement if it found one, else the default. -/
def selectMeasurement (f : RawFields) : Measurement :=
  let nd := extract_from_name f.product_name
  let pd := extract_from_ppu f.price_per_unit f.current_price
  if nd.unit_type.isSome then nd
  else if pd.unit_type.isSome then pd
  else defaultMeasurement

/-- `DataProcessor.create_product_data`.  The two abstract methods
`_get_category` and `_create_store_location` are passed in as functions
(market subclasses implement them). -/
def create_product_data
    (getCategory : List Char → List Char → Option (List Char))
    (storeLocation : List Char → List Char) (f : RawFields) : CanonicalProduct :=
  let cpv := extract_price f.current_price
  let rpv := extract_price f.regular_price
  let m := selectMeasurement f
  let discount : ℚ :=
    match rpv, cpv with
    | some r, some c =>
      if r ≠ 0 ∧ c ≠ 0 ∧ 0 < r ∧ c < r then
        round2 (qMulNat (qDiv (qSub r c) r) 100)
      else 0
    | _, _ => 0
  let ppuv : Option ℚ :=
    match cpv, m.standard_quantity with
    | some c, some sq =>
      if c ≠ 0 ∧ sq ≠ 0 ∧ 0 < sq then some (round2 (qDiv c sq)) else none
    | _, _ => none
  { product_name := process_product_name f.product_name
    current_price := cpv
    price_per_unit := ppuv
    unit := m.unit_type.map unitTypeMap
    category := getCategory f.description f.product_name
    discount_percentage := discount
    store_location := storeLocation f.store_name }

/-- A sample category strategy (used to instantiate witnesses): return the
description verbatim. -/
def sampleGetCategory : List Char → List Char → Option (List Char) :=
  fun d _ => some d

/-- A sample store-location strategy (used to instantiate witnesses): return
the store name verbatim. -/
def sampleStoreLocation : List Char → List Char := fun s => s

/-! ## RecordValidator (`DataValidator._define_schema` / `validate`) -/

/-- JSON values appearing in the processed records. -/
inductive JVal
  | str (s : List Char)
  | num (q : ℚ)
  | null
deriving DecidableEq, Repr

/-- A processed record as seen by the validator: one optional JSON value per
schema property (`none` = the key is absent). -/
structure JRecord where
  product_name : Option JVal
  current_price : Option JVal
  price_per_unit : Option JVal
  unit : Option JVal
  category : Option JVal
  discount_percentage : Option JVal
  store_location : Option JVal
deriving DecidableEq, Repr

/-- Schema check for `product_name` and `store_location`:
`{"type": "string", "minLength": 1}` (property checks apply only when the key
is present). -/
def nonEmptyStringOk : Option JVal → Bool
  | none => true
  | some (JVal.str s) => 1 ≤ s.length
  | some _ => false

/-- Schema check for `current_price`:
`{"type": "number", "exclusiveMinimum": 0}`. -/
def currentPriceOk : Option JVal → Bool
  | none => true
  | some (JVal.num q) => 0 < q
  | some _ => false

/-- Schema check for `price_per_unit`:
`{"type": ["number", "null"], "exclusiveMinimum": 0}` (`exclusiveMinimum`
constrains numbers only, so `null` passes). -/
def pricePerUnitOk : Option JVal → Bool
  | none => true
  | some JVal.null => true
  | some (JVal.num q) => 0 < q
  | some _ => false

/-- Schema check for `unit`:
`{"type": "string", "enum": ["kg", "l", "piece"]}`. -/
def unitOk : Option JVal → Bool
  | none => true
  | some (JVal.str s) =>
    s == "kg".toList || s == "l".toList || s == "piece".toList
  | some _ => false

/-- Schema check for `category`: `{"type": "string"}`. -/
def categoryOk : Option JVal → Bool
  | none => true
  | some (JVal.str _) => true
  | some _ => false

/-- Schema check for `discount_percentage`:
`{"type": "number", "minimum": 0, "maximum": 100}`. -/
def discountOk : Option JVal → Bool
  | none => true
  | some (JVal.num q) => 0 ≤ q ∧ q ≤ 100
  | some _ => false

/-- The `required` clause: all seven keys must be present. -/
def requiredOk (r : JRecord) : Bool :=
  r.product_name.isSome && r.current_price.isSome && r.price_per_unit.isSome &&
    r.unit.isSome && r.category.isSome && r.discount_percentage.isSome &&
    r.store_location.isSome

/-- `jsonschema.validate` against `DataValidator._define_schema`: true iff the
record raises no `ValidationError`. -/
def validateRecord (r : JRecord) : Bool :=
  requiredOk r && nonEmptyStringOk r.product_name &&
    currentPriceOk r.current_price && pricePerUnitOk r.price_per_unit &&
    unitOk r.unit && categoryOk r.category &&
    discountOk r.discount_percentage && nonEmptyStringOk r.store_location

/-- The pandas `drop_duplicates` identity key:
`(product_name, store_location)`. -/
def recKey (r : JRecord) : Option JVal × Option JVal :=
  (r.product_name, r.store_location)

/-- `DataFrame.drop_duplicates(subset=["product_name", "store_location"],
keep="first")`, with an accumulator of already-seen keys. -/
def dropDupGo : List JRecord → List (Option JVal × Option JVal) → List JRecord
  | [], _ => []
  | r :: rs, seen =>
    if seen.contains (recKey r) then dropDupGo rs seen
    else r :: dropDupGo rs (recKey r :: seen)

/-- `DataValidator.validate`: keep the records that pass the schema (in input
order), then drop duplicate `(product_name, store_location)` keys keeping the
first occurrence. -/
def validate_and_dedupe (records : List JRecord) : List JRecord :=
  dropDupGo (records.filter validateRecord) []

/-- The §4.5 `Deduplicator` contract written from the spec's words: keep the
first occurrence of each identity key in input order, drop every subsequent
occurrence with the same key. -/
def keepFirstByKey : List JRecord → List JRecord
  | [] => []
  | r :: rs => r :: keepFirstByKey (rs.filter fun x => recKey x != recKey r)
termination_by l => l.length
decreasing_by
  simp only [List.length_cons]
  exact Nat.lt_succ_of_le (List.length_filter_le _ _)

/-! ## AnalyticsSummarizer (`generate_summary_analytics`)

The report's contents are modelled over the validated rows; the
`report_generated_at` wall-clock value is abstracted to a marker, and the tie
order among equal prices (numpy quicksort, unspecified) is fixed by a
deterministic insertion sort. -/

/-- Sum of two rationals, built via `mkRat` (kernel-reducible). -/
def qAdd (a b : ℚ) : ℚ :=
  mkRat (a.num * (b.den : ℤ) + b.num * (a.den : ℤ)) (a.den * b.den)

/-- The columns of a validated row used by the analytics. -/
structure SRow where
  product_name : List Char
  current_price : ℚ
  discount_percentage : ℚ
  category : Option (List Char)
deriving DecidableEq, Repr

/-- The JSON values of the summary report. -/
inductive SVal
  | timestamp
  | intVal (n : ℕ)
  | numVal (q : ℚ)
  | countsByCat (m : List (List Char × ℕ))
  | avgByCat (m : List (List Char × ℚ))
  | productList (l : List (List Char × ℚ))
deriving DecidableEq, Repr

/-- The distinct non-null categories, in first-occurrence order (`groupby`
drops null keys; its key ordering does not affect any claim). -/
def categoriesOf (rows : List SRow) : List (List Char) :=
  rows.foldl
    (fun acc r =>
      match r.category with
      | none => acc
      | some c => if acc.contains c then acc else acc ++ [c]) []

/-- `category_group.size()` for one category. -/
def catCount (rows : List SRow) (c : List Char) : ℕ :=
  (rows.filter fun r => r.category == some c).length

/-- `category_group["current_price"].mean().round(2)` for one category. -/
def catAvg (rows : List SRow) (c : List Char) : ℚ :=
  let g := rows.filter fun r => r.category == some c
  round2 (qDivNat (g.foldl (fun a r => qAdd a r.current_price) 0) g.length)

/-- Insert into a price-descending list (stable). -/
def insertByPriceDesc (r : SRow) : List SRow → List SRow
  | [] => [r]
  | x :: xs =>
    if x.current_price < r.current_price then r :: x :: xs
    else x :: insertByPriceDesc r xs

/-- `df.sort_values(by="current_price", ascending=False)`. -/
def sortByPriceDesc (rows : List SRow) : List SRow :=
  rows.foldr insertByPriceDesc []

/-- `df_sorted_price.head(10)[["product_name", "current_price"]]`. -/
def top10expensive (rows : List SRow) : List (List Char × ℚ) :=
  ((sortByPriceDesc rows).take 10).map fun r => (r.product_name, r.current_price)

/-- `df_sorted_price.tail(10)` re-sorted ascending, reduced to
`(product_name, current_price)` pairs. -/
def top10cheapest (rows : List SRow) : List (List Char × ℚ) :=
  let sorted := sortByPriceDesc rows
  ((sorted.drop (sorted.length - 10)).reverse).map
    fun r => (r.product_name, r.current_price)

/-- `generate_summary_analytics` (`src/reporting/analytics.py`): `none` models
the early return on an empty DataFrame; otherwise the report is the ordered
key/value list written to JSON.  Note the double underscore in the last key,
exactly as in the source. -/
def generate_summary_analytics (rows : List SRow) : Option (List (String × SVal)) :=
  if rows.isEmpty then none
  else
    let total := rows.length
    let onDisc := (rows.filter fun r => 0 < r.discount_percentage).length
    let catPresent := !(rows.all fun r => r.category.isNone)
    let catAnalytics : List (String × SVal) :=
      if catPresent then
        [("products_per_category",
            SVal.countsByCat ((categoriesOf rows).map fun c => (c, catCount rows c))),
          ("average_price_per_category",
            SVal.avgByCat ((categoriesOf rows).map fun c => (c, catAvg rows c)))]
      else []
    some
      ([("report_generated_at", SVal.timestamp),
        ("total_products", SVal.intVal total),
        ("products_on_discount", SVal.intVal onDisc),
        ("discount_ratio",
          SVal.numVal (if 0 < total then round2 (qDivNat (mkRat (onDisc : ℤ) 1) total) else 0))]
        ++ catAnalytics ++
        [("top_10_expensive_products", SVal.productList (top10expensive rows)),
          ("top__10_cheapest_products", SVal.productList (top10cheapest rows))])

/-- The five schema properties other than `current_price` and
`price_per_unit`: present and passing their checks. -/
def otherFieldsOk (r : JRecord) : Prop :=
  r.product_name.isSome = true ∧ nonEmptyStringOk r.product_name = true ∧
  r.unit.isSome = true ∧ unitOk r.unit = true ∧
  r.category.isSome = true ∧ categoryOk r.category = true ∧
  r.discount_percentage.isSome = true ∧ discountOk r.discount_percentage = true ∧
  r.store_location.isSome = true ∧ nonEmptyStringOk r.store_location = true

/-- Replace the price fields of a record, keeping the rest. -/
def withPrices (r : JRecord) (cp ppu : Option JVal) : JRecord :=
  { r with
      current_price := cp
      price_per_unit := ppu }

/-! ## Theorems -/

theorem qSub_eq (a b : ℚ) : qSub a b = a - b := by
  conv_rhs => rw [← Rat.num_divInt_den a, ← Rat.num_divInt_den b]
  rw [Rat.divInt_sub_divInt _ _ (by exact_mod_cast a.den_nz) (by exact_mod_cast b.den_nz),
    qSub, Rat.mkRat_eq_divInt]
  push_cast
  rfl

theorem qDiv_eq (a b : ℚ) : qDiv a b = a / b := by
  conv_rhs => rw [← Rat.num_divInt_den a, ← Rat.num_divInt_den b]
  rw [Rat.divInt_div_divInt, qDiv]
  split
  · next h =>
    rw [Rat.mkRat_eq_divInt]
    congr 1
    push_cast [Int.toNat_of_nonneg h]
    rfl
  · next h =>
    rw [Rat.mkRat_eq_divInt]
    have h2 : ((a.den * (-b.num).toNat : ℕ) : ℤ) = -((a.den : ℤ) * b.num) := by
      push_cast [Int.toNat_of_nonneg (by omega : (0:ℤ) ≤ -b.num)]
      ring
    rw [h2, Rat.neg_divInt_neg]

theorem natCast_eq_divInt (n : ℕ) : ((n : ℚ)) = Rat.divInt (n : ℤ) 1 := by
  rw [Rat.divInt_one]
  rfl

theorem qMulNat_eq (a : ℚ) (n : ℕ) : qMulNat a n = a * (n : ℚ) := by
  conv_rhs => rw [← Rat.num_divInt_den a]
  rw [natCast_eq_divInt, Rat.divInt_mul_divInt', qMulNat, Rat.mkRat_eq_divInt]
  rw [mul_one]

theorem qDivNat_eq (a : ℚ) (n : ℕ) : qDivNat a n = a / (n : ℚ) := by
  conv_rhs => rw [← Rat.num_divInt_den a]
  rw [natCast_eq_divInt, Rat.divInt_div_divInt, qDivNat, Rat.mkRat_eq_divInt]
  push_cast
  rw [mul_one]

theorem dropDupGo_eq (l : List JRecord) :
    ∀ seen, dropDupGo l seen =
      keepFirstByKey (l.filter fun r => !(seen.contains (recKey r))) := by
  induction l with
  | nil => intro seen; simp [dropDupGo, keepFirstByKey]
  | cons r rs ih =>
    intro seen
    by_cases h : seen.contains (recKey r)
    · rw [dropDupGo, if_pos h,
        List.filter_cons_of_neg (by simpa using h), ih seen]
    · rw [dropDupGo, if_neg h,
        List.filter_cons_of_pos (by simpa using h), keepFirstByKey, ih]
      have hf : List.filter (fun x => !(recKey r :: seen).contains (recKey x)) rs =
          List.filter (fun x => recKey x != recKey r)
            (List.filter (fun x => !seen.contains (recKey x)) rs) := by
        rw [List.filter_filter]
        apply List.filter_congr
        intro x _
        by_cases hx : recKey x = recKey r <;>
          simp [List.contains_cons, hx, Bool.and_comm]
      rw [hf]

/-! ## Helper lemmas about the parser -/

theorem any_isDigit_filter_ne_comma (t : List Char) :
    ((t.filter fun c => c != ',').any Char.isDigit) = t.any Char.isDigit := by
  induction t with
  | nil => rfl
  | cons c cs ih =>
    by_cases h : c = ','
    · subst h
      rw [List.filter_cons_of_neg (by decide), List.any_cons]
      simpa using ih
    · rw [List.filter_cons_of_pos (by simpa using h), List.any_cons,
        List.any_cons, ih]

theorem any_isDigit_map_comma_dot (t : List Char) :
    ((t.map fun c => if c == ',' then '.' else c).any Char.isDigit) =
      t.any Char.isDigit := by
  induction t with
  | nil => rfl
  | cons c cs ih =>
    rw [List.map_cons, List.any_cons, List.any_cons, ih]
    by_cases h : c = ',' <;> simp [h]

theorem any_isDigit_normalizeSeparators (t : List Char) :
    ((normalizeSeparators t).any Char.isDigit) = t.any Char.isDigit := by
  rw [normalizeSeparators]
  split
  · exact any_isDigit_filter_ne_comma t
  · split
    · exact any_isDigit_map_comma_dot t
    · rfl

theorem all_digit_dot_normalizeSeparators (s : List Char) :
    ((normalizeSeparators (stripNonNumeric s)).all
      fun c => c.isDigit || c == '.') = true := by
  rw [List.all_eq_true]
  intro c hc
  have hstrip : ∀ x ∈ stripNonNumeric s, x.isDigit = true ∨ x = '.' ∨ x = ',' := by
    intro x hx
    have h := List.of_mem_filter hx
    simp at h
    tauto
  rw [normalizeSeparators] at hc
  split at hc
  · next hboth =>
    have hne := List.of_mem_filter hc
    have hx := hstrip c (List.mem_of_mem_filter hc)
    rcases hx with h | h | h <;> simp_all
  · split at hc
    · next =>
      obtain ⟨x, hx, rfl⟩ := List.mem_map.mp hc
      have hx2 := hstrip x hx
      by_cases hx3 : x = ',' <;> rcases hx2 with h | h | h <;> simp_all
    · next h1 h2 =>
      have hx := hstrip c hc
      rcases hx with h | h | h
      · simp [h]
      · simp [h]
      · subst h
        exact absurd (List.elem_eq_true_of_mem hc) h2

theorem pyFloat_eq_none_iff (u : List Char)
    (hall : (u.all fun c => c.isDigit || c == '.') = true) :
    pyFloat u = none ↔ ((u.any Char.isDigit) = false ∨ 2 ≤ u.count '.') := by
  by_cases h : ((u.all fun c => c.isDigit || c == '.') = true) ∧
      ((u.any fun c => c.isDigit) = true) ∧ (u.count '.' ≤ 1)
  · rw [pyFloat, if_pos h]
    refine iff_of_false (by simp) ?_
    rintro (h2 | h2)
    · rw [h.2.1] at h2
      cases h2
    · have := h.2.2
      omega
  · rw [pyFloat, if_neg h]
    refine iff_of_true rfl ?_
    rcases not_and_or.mp h with h1 | h1
    · exact absurd hall h1
    rcases not_and_or.mp h1 with h2 | h2
    · left
      simpa using h2
    · right
      omega

theorem extract_price_eq_pyFloat (s : List Char) :
    extract_price s = pyFloat (normalizeSeparators (stripNonNumeric s)) := by
  cases s with
  | nil => decide
  | cons c cs => rfl

theorem extract_price_eq_parseSpec (s : List Char) :
    extract_price s = parseSpec s := by
  rw [extract_price_eq_pyFloat, parseSpec, normalizeSeparators]
  simp only [stripNonNumeric]
  by_cases h1 : ',' ∈ s <;> by_cases h2 : '.' ∈ s <;> simp [h1, h2]

/-! ## Claim theorems -/

/-- Claim C4, counterexample: stripping `"1.299,99"` keeps `"1.299,99"`, both
separators are present, so every `,` is removed giving `"1.29999"`, which
parses to 1.29999 — not to 1299.99 as the claim's example asserts. -/
theorem c4_counterexample : extract_price "1.299,99".toList ≠ some (1299.99 : ℚ) := by
  have h : extract_price "1.299,99".toList = some (mkRat 129999 100000) := by decide
  rw [h]
  intro hc
  have h2 := Option.some.inj hc
  rw [Rat.mkRat_eq_divInt, Rat.divInt_eq_div] at h2
  norm_num at h2

/-- Claim C4 (amended): `_extract_price` strips all characters except digits,
`.` and `,`; when both `.` and `,` remain every `,` is removed before parsing,
and when only `,` remains it is replaced by `.`; it is total (never raises)
and returns null exactly when the float parse fails — as captured by the
spec-worded `parseSpec`.  The concrete examples: `parse "1.299,99" = 1.29999`
(not 1299.99: the comma-removal rule yields `"1.29999"`),
`parse "150,50" = 150.5`, `parse "abc" = null`. -/
theorem c4_price_parsing :
    (∀ s : List Char, extract_price s = parseSpec s) ∧
    extract_price "1.299,99".toList = some (1.29999 : ℚ) ∧
    extract_price "150,50".toList = some (150.5 : ℚ) ∧
    extract_price "abc".toList = none := by
  refine ⟨extract_price_eq_parseSpec, ?_, ?_, by decide⟩
  · have h : extract_price "1.299,99".toList = some (mkRat 129999 100000) := by decide
    rw [h]
    congr 1
    rw [Rat.mkRat_eq_divInt, Rat.divInt_eq_div]
    norm_num
  · have h : extract_price "150,50".toList = some (mkRat 301 2) := by decide
    rw [h]
    congr 1
    rw [Rat.mkRat_eq_divInt, Rat.divInt_eq_div]
    norm_num

/-- Claim C5, counterexample: `"1.2.3"` contains digits after stripping, yet
`_extract_price` returns null (two decimal points survive separator
normalization and the float parse fails). -/
theorem c5_counterexample :
    extract_price "1.2.3".toList = none ∧
    ((stripNonNumeric "1.2.3".toList).any Char.isDigit) = true := by decide

/-- Claim C5 (amended): `_extract_price` returns null iff no digit is present
after stripping non-numeric characters, or more than one `.` remains after
separator normalization (e.g. `"1.2.3"`). -/
theorem c5_parse_null_iff (s : List Char) :
    extract_price s = none ↔
      (((stripNonNumeric s).any Char.isDigit) = false ∨
        2 ≤ (normalizeSeparators (stripNonNumeric s)).count '.') := by
  rw [extract_price_eq_pyFloat,
    pyFloat_eq_none_iff _ (all_digit_dot_normalizeSeparators s),
    any_isDigit_normalizeSeparators]

/-- Claim C1, counterexample: with `current_price = "0"` the price parses to
the value 0, the measurement falls back to the default (so a measurement was
determined), yet `price_per_unit` is null, because Python's truthiness test
`if current_price_val and ...` treats 0.0 as false. -/
theorem c1_counterexample :
    extract_price "0".toList = some 0 ∧
    selectMeasurement ⟨"ЛЕБ".toList, "0".toList, [], [], [], [], "С".toList⟩ =
      defaultMeasurement ∧
    (create_product_data sampleGetCategory sampleStoreLocation
      ⟨"ЛЕБ".toList, "0".toList, [], [], [], [], "С".toList⟩).price_per_unit =
      none := by decide

/-- Claim C1 (amended): `price_per_unit` is populated (with
`round2 (current_price / standard_quantity)`) whenever `current_price` parses
to a nonzero value and the selected measurement's `standard_quantity` is
positive — under the fallback policy it is always `some`; and `price_per_unit`
is null whenever `current_price` fails to parse or parses to 0. -/
theorem c1_price_per_unit
    (gc : List Char → List Char → Option (List Char))
    (sl : List Char → List Char) (f : RawFields) :
    (∀ c, extract_price f.current_price = some c → c ≠ 0 →
      ∀ sq, (selectMeasurement f).standard_quantity = some sq → 0 < sq →
        (create_product_data gc sl f).price_per_unit =
          some (round2 (c / sq))) ∧
    (extract_price f.current_price = none →
      (create_product_data gc sl f).price_per_unit = none) ∧
    (extract_price f.current_price = some 0 →
      (create_product_data gc sl f).price_per_unit = none) := by
  refine ⟨?_, ?_, ?_⟩
  · intro c hc hc0 sq hsq hsq0
    simp only [create_product_data, hc, hsq]
    rw [if_pos ⟨hc0, hsq0.ne', hsq0⟩, qDiv_eq]
  · intro hc
    simp only [create_product_data, hc]
  · intro hc
    rcases hsq : (selectMeasurement f).standard_quantity with _ | sq <;>
      simp [create_product_data, hc, hsq]

/-- Witness for C1: a record with no detectable measurement and
`current_price = "10"` gets `price_per_unit = round2 (10 / 1)`. -/
theorem c1_witness :
    (create_product_data sampleGetCategory sampleStoreLocation
      ⟨"ЛЕБ".toList, "10".toList, [], [], [], [], "С".toList⟩).price_per_unit =
      some (round2 ((10 : ℚ) / 1)) :=
  (c1_price_per_unit sampleGetCategory sampleStoreLocation _).1 10 (by decide)
    (by decide) 1 (by decide) (by decide)

/-- Claim C2, counterexample: with `current_price = "0"` and
`regular_price = "5"` both prices parse, `regular_price > 0` and
`current_price < regular_price`, so the claim's formula demands
`round(((5-0)/5)*100, 2) = 100`, but the code computes 0: Python's
truthiness test treats the parsed 0.0 as false. -/
theorem c2_counterexample :
    extract_price "0".toList = some 0 ∧
    extract_price "5".toList = some 5 ∧
    (0 : ℚ) < 5 ∧
    (create_product_data sampleGetCategory sampleStoreLocation
      ⟨"ЛЕБ".toList, "0".toList, "5".toList, [], [], [], "С".toList⟩).discount_percentage
      = 0 ∧
    round2 (((5 : ℚ) - 0) / 5 * 100) = 100 ∧ (0 : ℚ) ≠ 100 := by
  refine ⟨by decide, by decide, by decide, by decide, ?_, by norm_num⟩
  have h : ((5 : ℚ) - 0) / 5 * 100 = 100 := by norm_num
  rw [h]
  decide

/-- Claim C2 (amended): `discount_percentage` is 0 unless both prices parse to
nonzero values (Python truthiness), `regular_price > 0` and
`current_price < regular_price`, in which case it equals
`round2 ((regular - current) / regular * 100)`; in particular
`regular_price = "303"`, `current_price = "209"` yields 31.02, and whenever
`regular_price ≤ current_price` the discount is 0. -/
theorem c2_discount :
    (∀ (gc : List Char → List Char → Option (List Char))
      (sl : List Char → List Char) (f : RawFields),
      (∀ r c, extract_price f.regular_price = some r →
        extract_price f.current_price = some c →
        (create_product_data gc sl f).discount_percentage =
          if r ≠ 0 ∧ c ≠ 0 ∧ 0 < r ∧ c < r then round2 ((r - c) / r * 100)
          else 0) ∧
      (extract_price f.regular_price = none ∨
          extract_price f.current_price = none →
        (create_product_data gc sl f).discount_percentage = 0) ∧
      (∀ r c, extract_price f.regular_price = some r →
        extract_price f.current_price = some c → r ≤ c →
        (create_product_data gc sl f).discount_percentage = 0)) ∧
    (create_product_data sampleGetCategory sampleStoreLocation
      ⟨"ТРИКС".toList, "209".toList, "303".toList, [], [], [], "С".toList⟩).discount_percentage
      = (31.02 : ℚ) := by
  constructor
  · intro gc sl f
    refine ⟨?_, ?_, ?_⟩
    · intro r c hr hc
      simp only [create_product_data, hr, hc]
      split_ifs with h
      · rw [qSub_eq, qDiv_eq, qMulNat_eq]
        norm_num
      · rfl
    · rintro (hr | hr)
      · rcases hc : extract_price f.current_price with _ | c <;>
          simp [create_product_data, hr, hc]
      · rcases hr2 : extract_price f.regular_price with _ | r <;>
          simp [create_product_data, hr, hr2]
    · intro r c hr hc hrc
      simp only [create_product_data, hr, hc]
      rw [if_neg]
      rintro ⟨-, -, -, hlt⟩
      exact absurd hlt (not_lt.mpr hrc)
  · have h : (create_product_data sampleGetCategory sampleStoreLocation
        ⟨"ТРИКС".toList, "209".toList, "303".toList, [], [], [],
          "С".toList⟩).discount_percentage = mkRat 1551 50 := by decide
    rw [h, Rat.mkRat_eq_divInt, Rat.divInt_eq_div]
    norm_num

/-- Witness for C2: the 209/303 record instantiates the general discount
formula with all hypotheses discharged concretely. -/
theorem c2_witness :
    (create_product_data sampleGetCategory sampleStoreLocation
      ⟨"ТРИКС".toList, "209".toList, "303".toList, [], [], [], "С".toList⟩).discount_percentage
      = if (303 : ℚ) ≠ 0 ∧ (209 : ℚ) ≠ 0 ∧ (0 : ℚ) < 303 ∧ (209 : ℚ) < 303 then
          round2 (((303 : ℚ) - 209) / 303 * 100)
        else 0 :=
  (c2_discount.1 sampleGetCategory sampleStoreLocation _).1 303 209 (by decide)
    (by decide)

/-- Claim C3 (confirmed): the measurement source of truth is the name
measurement when it found a unit kind, else the price-per-unit measurement
when it found one, else the default
`{quantity: 1, unit: "PIECE", unit_type: pieces, standard_quantity: 1}`;
consequently a record with no detectable measurement in either source gets
output unit `"piece"` and internal standard quantity 1. -/
theorem c3_source_of_truth
    (gc : List Char → List Char → Option (List Char))
    (sl : List Char → List Char) (f : RawFields) :
    (selectMeasurement f =
      if (extract_from_name f.product_name).unit_type.isSome then
        extract_from_name f.product_name
      else if (extract_from_ppu f.price_per_unit f.current_price).unit_type.isSome then
        extract_from_ppu f.price_per_unit f.current_price
      else ⟨some 1, some "PIECE".toList, some UnitKind.pieces, some 1⟩) ∧
    ((extract_from_name f.product_name).unit_type = none →
      (extract_from_ppu f.price_per_unit f.current_price).unit_type = none →
      (create_product_data gc sl f).unit = some "piece".toList ∧
        (selectMeasurement f).standard_quantity = some 1) := by
  constructor
  · rfl
  · intro h1 h2
    have hsel : selectMeasurement f =
        ⟨some 1, some "PIECE".toList, some UnitKind.pieces, some 1⟩ := by
      rw [selectMeasurement]
      simp only [h1, h2, Option.isSome_none, Bool.false_eq_true, if_false]
      decide
    constructor
    · simp [create_product_data, hsel, unitTypeMap]
    · rw [hsel]

/-- Witness for C3: `"ЛЕБ"` has no unit token and the empty price-per-unit
field yields nothing, so the product is normalized as one piece. -/
theorem c3_witness :
    (create_product_data sampleGetCategory sampleStoreLocation
      ⟨"ЛЕБ".toList, "10".toList, [], [], [], [], "С".toList⟩).unit =
      some "piece".toList ∧
    (selectMeasurement
      ⟨"ЛЕБ".toList, "10".toList, [], [], [], [], "С".toList⟩).standard_quantity =
      some 1 :=
  (c3_source_of_truth sampleGetCategory sampleStoreLocation _).2 (by decide)
    (by decide)

/-- Claim C6, counterexample: a record that satisfies every property check but
simply lacks the `price_per_unit` key is rejected (the schema lists
`price_per_unit` under `required`), while the otherwise-identical record with
`price_per_unit = null` passes — so "absent" is not permitted. -/
theorem c6_counterexample :
    validateRecord
      ⟨some (JVal.str "A".toList), some (JVal.num 50), none,
        some (JVal.str "kg".toList), some (JVal.str []), some (JVal.num 0),
        some (JVal.str "X".toList)⟩ = false ∧
    validateRecord
      ⟨some (JVal.str "A".toList), some (JVal.num 50), some JVal.null,
        some (JVal.str "kg".toList), some (JVal.str []), some (JVal.num 0),
        some (JVal.str "X".toList)⟩ = true := by decide

/-- Claim C6 (amended): on records whose other five fields satisfy the schema,
the validator rejects `current_price = -10` and accepts `current_price = 50`;
`price_per_unit` may be any strictly positive number or `null`, but an absent
`price_per_unit` key is always rejected, because the field is in the schema's
`required` list. -/
theorem c6_validator (r : JRecord) (ho : otherFieldsOk r) :
    (validateRecord (withPrices r (some (JVal.num (-10))) (some JVal.null)) =
      false) ∧
    (validateRecord (withPrices r (some (JVal.num 50)) (some JVal.null)) =
      true) ∧
    (∀ c : ℚ, 0 < c → ∀ p : ℚ, 0 < p →
      validateRecord (withPrices r (some (JVal.num c)) (some (JVal.num p))) =
        true) ∧
    (∀ c : ℚ, 0 < c →
      validateRecord (withPrices r (some (JVal.num c)) (some JVal.null)) =
        true) ∧
    (∀ c : ℚ,
      validateRecord (withPrices r (some (JVal.num c)) none) = false) := by
  obtain ⟨h1, h2, h3, h4, h5, h6, h7, h8, h9, h10⟩ := ho
  refine ⟨?_, ?_, ?_, ?_, ?_⟩
  · simp [withPrices, validateRecord, requiredOk, currentPriceOk, pricePerUnitOk,
      h1, h2, h3, h4, h5, h6, h7, h8, h9, h10]
  · simp [withPrices, validateRecord, requiredOk, currentPriceOk, pricePerUnitOk,
      h1, h2, h3, h4, h5, h6, h7, h8, h9, h10]
  · intro c hc p hp
    simp [withPrices, validateRecord, requiredOk, currentPriceOk, pricePerUnitOk,
      h1, h2, h3, h4, h5, h6, h7, h8, h9, h10, hc, hp]
  · intro c hc
    simp [withPrices, validateRecord, requiredOk, currentPriceOk, pricePerUnitOk,
      h1, h2, h3, h4, h5, h6, h7, h8, h9, h10, hc]
  · intro c
    simp [withPrices, validateRecord, requiredOk]

theorem c6_witness :
    validateRecord
      ⟨some (JVal.str "A".toList), some (JVal.num 50), some JVal.null,
        some (JVal.str "kg".toList), some (JVal.str []), some (JVal.num 0),
        some (JVal.str "X".toList)⟩ = true :=
  (c6_validator
    ⟨some (JVal.str "A".toList), none, none,
      some (JVal.str "kg".toList), some (JVal.str []), some (JVal.num 0),
      some (JVal.str "X".toList)⟩ (by unfold otherFieldsOk; decide)).2.1

/-- Claim C7 (confirmed): `DataValidator.validate` equals the spec's
deduplicator applied to the schema-valid records only: records failing the
schema are removed first (in input order), and then, per
`(product_name, store_location)` key, the first occurrence is kept and every
subsequent occurrence dropped. -/
theorem c7_validate_dedupe (records : List JRecord) :
    validate_and_dedupe records =
      keepFirstByKey (records.filter validateRecord) := by
  rw [validate_and_dedupe, dropDupGo_eq]
  congr 1
  simp

/-- Claim C8: on any non-empty dataset the summary report's keys are
`report_generated_at`, `total_products`, `products_on_discount`,
`discount_ratio`, the two per-category keys when category data is present,
`top_10_expensive_products` — and `top__10_cheapest_products` (sic, double
underscore), so the `top_10_cheapest_products` key required by the spec is
absent. -/
theorem c8_report_keys :
    (generate_summary_analytics
        [⟨"А".toList, 209, mkRat 1551 50, some "К".toList⟩]).map
        (List.map Prod.fst) =
      some ["report_generated_at", "total_products", "products_on_discount",
        "discount_ratio", "products_per_category",
        "average_price_per_category", "top_10_expensive_products",
        "top__10_cheapest_products"] ∧
    (((generate_summary_analytics
        [⟨"А".toList, 209, mkRat 1551 50, some "К".toList⟩]).map
        (List.map Prod.fst)).getD []).contains "top_10_cheapest_products" =
      false := by decide

/-- Claim C9, counterexample: the pieces regex is `(\d+)\s*(...)` — no decimal
part — so `"1.5 КОМ"` is parsed with quantity 5 (the regex matches `5 КОМ`),
not with the decimal quantity 1.5. -/
theorem c9_counterexample :
    extract_from_name "1.5 КОМ".toList =
      ⟨some 5, some "КОМ".toList, some UnitKind.pieces, some 5⟩ ∧
    (5 : ℚ) ≠ (1.5 : ℚ) := by
  refine ⟨by decide, by norm_num⟩

/-- Claim C9 (amended): the volume and weight patterns have the decimal shape
`(\d+(?:\.\d+)?)\s*(token)` and recognize decimal quantities, but the pieces
pattern is `(\d+)\s*(token)`, so a decimal quantity before a pieces token is
not recognized as such: `"1.5Л"` gives 1.5 (volume), `"1.5КГ"` gives 1.5
(weight), while `"1.5КОМ"` gives 5 (pieces). -/
theorem c9_decimal_quantities :
    extract_from_name "1.5Л".toList =
      ⟨some (1.5 : ℚ), some "Л".toList, some UnitKind.volume,
        some (1.5 : ℚ)⟩ ∧
    extract_from_name "1.5КГ".toList =
      ⟨some (1.5 : ℚ), some "КГ".toList, some UnitKind.weight,
        some (1.5 : ℚ)⟩ ∧
    extract_from_name "1.5КОМ".toList =
      ⟨some 5, some "КОМ".toList, some UnitKind.pieces, some 5⟩ := by
  have h15 : (1.5 : ℚ) = mkRat 3 2 := by
    rw [Rat.mkRat_eq_divInt, Rat.divInt_eq_div]
    norm_num
  refine ⟨?_, ?_, by decide⟩ <;> rw [h15] <;> decide

/-- Claim C10 (confirmed): when the price-per-unit string (upper-cased)
matches `<number> ДЕН / <unit-token>`, `_extract_price_per_unit_value` scales
the number by `multiplier / 1000` exactly when the token is in the volume
multiplier table (the loop returns during its first iteration), and returns
the number unchanged for every other token — in particular for all weight and
pieces tokens, so a per-gram price is never rescaled to a per-kilogram
price. -/
theorem c10_ppu_value (s : List Char) (v : ℚ) (u : List Char)
    (h : searchDenSlash (s.map pyToUpper) = some (v, u)) :
    (∀ m, lookupMult volumeMultipliers u = some m →
      extract_price_per_unit_value s = some (v * (m : ℚ) / 1000)) ∧
    (lookupMult volumeMultipliers u = none →
      extract_price_per_unit_value s = some v) ∧
    (u ∈ weightUnits ∨ u ∈ piecesUnits →
      lookupMult volumeMultipliers u = none) := by
  cases s with
  | nil => cases h
  | cons a as =>
    refine ⟨?_, ?_, ?_⟩
    · intro m hm
      rw [extract_price_per_unit_value]
      simp only [List.isEmpty_cons, Bool.false_eq_true, if_false, h, hm]
      rw [qDivNat_eq, qMulNat_eq]
      norm_num
    · intro hm
      rw [extract_price_per_unit_value]
      simp only [List.isEmpty_cons, Bool.false_eq_true, if_false, h, hm]
    · have hw : ∀ x ∈ weightUnits, lookupMult volumeMultipliers x = none := by
        decide
      have hp : ∀ x ∈ piecesUnits, lookupMult volumeMultipliers x = none := by
        decide
      rintro (hu | hu)
      · exact hw u hu
      · exact hp u hu

/-- Witness for C10: `"697 ден/кг"` upper-cases to `697 ДЕН/КГ`; `КГ` is not a
volume token, so the value 697 is returned unchanged. -/
theorem c10_witness :
    extract_price_per_unit_value "697 ден/кг".toList = some 697 :=
  (c10_ppu_value "697 ден/кг".toList 697 "КГ".toList (by decide)).2.1
    (by decide)
